import Mathlib

/-!
Verification of the episode lifecycle and artifact store of the teanga
repository (src/teanga/storage/manager.py and src/teanga/utils/config.py),
as a shallow embedding in Lean 4.

Modelling conventions, fixed once for the whole file:

* Machine time (`datetime.utcnow()`) is modelled by an abstract
  monotonically increasing clock of natural-number ticks; each call to
  `utcnow` observes the current tick and advances the clock by one, so
  two successive calls yield strictly increasing timestamps.
* JSON documents (the result of a successful `json.load` / the argument
  of `json.dump`) are modelled by the inductive type `Json`.  A file's
  raw text is abstracted to `FileContent`: either some `Json` value (the
  text parses) or `FileContent.notJson` (the text is not valid JSON -
  this includes the empty and truncated files produced by an interrupted
  write).  Python `datetime` values serialize in `model_dump(mode="json")`
  to ISO-8601 strings; since that rendering is injective we abstract it
  by the tick value itself (`Json.num`).
* The filesystem is the pair of (a) the set of directories that exist
  and (b) the content of the one `metadata.json` under study.
* Python exceptions become `Except` errors; a function that cannot raise
  is a plain function.
-/

/-- A JSON value, the abstract result of `json.load`. -/
inductive Json where
  | null : Json
  | bool (b : Bool) : Json
  | num (n : Int) : Json
  | str (s : String) : Json
  | arr (elems : List Json) : Json
  | obj (fields : List (String × Json)) : Json
deriving Repr, BEq

/-- A timestamp: the value returned by one call of `datetime.utcnow()`,
abstracted to the tick count of the model clock. -/
abbrev Tick := Nat

/-- One record of the processing ledger

    class ProcessingStep(BaseModel):
        step: str
        timestamp: datetime = Field(default_factory=datetime.utcnow)
        status: str
        details: Optional[Dict[str, Any]] = None
-/
structure ProcessingStep where
  step : String
  timestamp : Tick
  status : String
  details : Option (List (String × Json)) := none
deriving Repr, BEq

/-- The per-episode metadata record

    class EpisodeMetadata(BaseModel):
        episode_id: str
        source: str
        show: str
        title: str
        pub_date: Optional[datetime] = None
        duration_seconds: Optional[int] = None
        original_url: str
        audio_checksum: Optional[str] = None
        processing_history: List[ProcessingStep] = []
        created_at: datetime = Field(default_factory=datetime.utcnow)
        updated_at: datetime = Field(default_factory=datetime.utcnow)
-/
structure EpisodeMetadata where
  episode_id : String
  source : String
  «show» : String
  title : String
  pub_date : Option Tick := none
  duration_seconds : Option Int := none
  original_url : String
  audio_checksum : Option String := none
  processing_history : List ProcessingStep := []
  created_at : Tick
  updated_at : Tick
deriving Repr, BEq

namespace EpisodeMetadata

/-- `EpisodeMetadata.add_processing_step` (manager.py lines 48-58):

        self.processing_history.append(
            ProcessingStep(step=step, status=status, details=details))
        self.updated_at = datetime.utcnow()

The `ProcessingStep` constructor evaluates `default_factory=datetime.utcnow`
for `timestamp` (one clock call), then `self.updated_at = datetime.utcnow()`
is a second clock call.  Returns the updated record and the advanced clock. -/
def add_processing_step (m : EpisodeMetadata) (step : String)
    (status : String := "success")
    (details : Option (List (String × Json)) := none)
    (clock : Tick) : EpisodeMetadata × Tick :=
  let entry : ProcessingStep :=
    { step := step, timestamp := clock, status := status, details := details }
  ({ m with
      processing_history := m.processing_history ++ [entry]
      updated_at := clock + 1 },
   clock + 2)

end EpisodeMetadata

/-- One field lookup inside a JSON object (Python dict access). -/
def Json.getField (fields : List (String × Json)) (key : String) : Option Json :=
  (fields.find? (fun p => p.1 == key)).map (fun p => p.2)

/-- `model_dump(mode="json")` of one `ProcessingStep`. -/
def encodeStep (s : ProcessingStep) : Json :=
  Json.obj
    [ ("step", Json.str s.step)
    , ("timestamp", Json.num (Int.ofNat s.timestamp))
    , ("status", Json.str s.status)
    , ("details", match s.details with
        | none => Json.null
        | some kvs => Json.obj kvs) ]

/-- `model_dump(mode="json")` of the whole `EpisodeMetadata` record: the
document written to `metadata.json` by `save_metadata`. -/
def encodeMeta (m : EpisodeMetadata) : Json :=
  Json.obj
    [ ("episode_id", Json.str m.episode_id)
    , ("source", Json.str m.source)
    , ("show", Json.str m.«show»)
    , ("title", Json.str m.title)
    , ("pub_date", match m.pub_date with
        | none => Json.null
        | some t => Json.num (Int.ofNat t))
    , ("duration_seconds", match m.duration_seconds with
        | none => Json.null
        | some n => Json.num n)
    , ("original_url", Json.str m.original_url)
    , ("audio_checksum", match m.audio_checksum with
        | none => Json.null
        | some c => Json.str c)
    , ("processing_history", Json.arr (m.processing_history.map encodeStep))
    , ("created_at", Json.num (Int.ofNat m.created_at))
    , ("updated_at", Json.num (Int.ofNat m.updated_at)) ]

/-- Pydantic validation of one required string field: present and a JSON
string, otherwise a `ValueError`. -/
def parseStrField (fields : List (String × Json)) (key : String) :
    Except String String :=
  match Json.getField fields key with
  | some (Json.str s) => Except.ok s
  | some _ => Except.error key
  | none => Except.error key

/-- Optional datetime field: absent or `null` gives `none`; a timestamp
value parses; anything else is a `ValueError`. -/
def parseOptTickField (fields : List (String × Json)) (key : String) :
    Except String (Option Tick) :=
  match Json.getField fields key with
  | none => Except.ok none
  | some Json.null => Except.ok none
  | some (Json.num n) =>
      if n < 0 then Except.error key else Except.ok (some n.toNat)
  | some _ => Except.error key

/-- Required-with-default datetime field (`created_at` / `updated_at` /
`timestamp` carry `default_factory=datetime.utcnow`): absent uses the
current clock, present must be a timestamp. -/
def parseTickFieldD (fields : List (String × Json)) (key : String)
    (now : Tick) : Except String Tick :=
  match Json.getField fields key with
  | none => Except.ok now
  | some (Json.num n) =>
      if n < 0 then Except.error key else Except.ok n.toNat
  | some _ => Except.error key

/-- Pydantic validation of one `ProcessingStep` object. -/
def parseStep (now : Tick) : Json → Except String ProcessingStep
  | Json.obj fields => do
      let step ← parseStrField fields "step"
      let status ← parseStrField fields "status"
      let timestamp ← parseTickFieldD fields "timestamp" now
      let details ←
        match Json.getField fields "details" with
        | none => Except.ok none
        | some Json.null => Except.ok none
        | some (Json.obj kvs) => Except.ok (some kvs)
        | some _ => Except.error "details"
      Except.ok { step := step, timestamp := timestamp,
                  status := status, details := details }
  | _ => Except.error "step-not-object"

/-- Pydantic validation `EpisodeMetadata(**data)`: required string fields
`episode_id, source, show, title, original_url`; optional `pub_date`,
`duration_seconds`, `audio_checksum`; `processing_history` defaults to `[]`;
`created_at` / `updated_at` default to `utcnow`.  A missing or ill-typed
required field raises `ValueError`. -/
def parseEpisodeMetadata (now : Tick) : Json → Except String EpisodeMetadata
  | Json.obj fields => do
      let episode_id ← parseStrField fields "episode_id"
      let source ← parseStrField fields "source"
      let showName ← parseStrField fields "show"
      let title ← parseStrField fields "title"
      let original_url ← parseStrField fields "original_url"
      let pub_date ← parseOptTickField fields "pub_date"
      let duration_seconds ←
        match Json.getField fields "duration_seconds" with
        | none => Except.ok none
        | some Json.null => Except.ok none
        | some (Json.num n) => Except.ok (some n)
        | some _ => Except.error "duration_seconds"
      let audio_checksum ←
        match Json.getField fields "audio_checksum" with
        | none => Except.ok none
        | some Json.null => Except.ok none
        | some (Json.str s) => Except.ok (some s)
        | some _ => Except.error "audio_checksum"
      let processing_history ←
        match Json.getField fields "processing_history" with
        | none => Except.ok []
        | some (Json.arr elems) => elems.mapM (parseStep now)
        | some _ => Except.error "processing_history"
      let created_at ← parseTickFieldD fields "created_at" now
      let updated_at ← parseTickFieldD fields "updated_at" now
      Except.ok
        { episode_id := episode_id, source := source, «show» := showName,
          title := title, pub_date := pub_date,
          duration_seconds := duration_seconds,
          original_url := original_url, audio_checksum := audio_checksum,
          processing_history := processing_history,
          created_at := created_at, updated_at := updated_at }
  | _ => Except.error "metadata-not-object"

/-- The raw text of one on-disk file, abstracted through `json.load`:
either it parses to a JSON document, or it does not (`notJson` covers the
empty file, a truncated write, and any other malformed text). -/
inductive FileContent where
  | notJson : FileContent
  | json (v : Json) : FileContent
deriving Repr, BEq

/-- The exceptions `_load_metadata` lets escape (manager.py lines 96-107):
`json.JSONDecodeError` re-raised from `json.load`, and `ValueError`
re-raised from pydantic validation.  Together they realise the spec's
`CorruptStateError`. -/
inductive LoadError where
  | jsonDecodeError : LoadError
  | valueError (field : String) : LoadError
deriving Repr, BEq

/-- A path, as its list of components (`Path("data") / "episodes" / id`). -/
abbrev FsPath := List String

/-- The filesystem state the storage manager touches: which directories
exist, and the content of the episode's `metadata.json` (`none` when the
file does not exist). -/
structure FsState where
  dirs : List FsPath
  metadata_json : Option FileContent
deriving Repr, BEq

/-- `Path.mkdir(parents=True, exist_ok=True)`: create the directory and
every ancestor, succeeding silently when they already exist. -/
def mkdirParents (p : FsPath) (fs : FsState) : FsState :=
  let ancestors := (List.range p.length).map (fun n => p.take (n + 1))
  { fs with
      dirs := ancestors.foldl
        (fun ds d => if d ∈ ds then ds else ds ++ [d]) fs.dirs }

/-- The default config root: `data_dir: Path = Path("data")`
(config.py lines 22-25). -/
def dataRoot : FsPath := ["data"]

/-- `TeangaConfig.get_episode_dir` (config.py lines 88-92): the path
`data_dir / "episodes" / episode_id`, created with
`mkdir(parents=True, exist_ok=True)`. -/
def get_episode_dir (episode_id : String) : FsPath :=
  dataRoot ++ ["episodes", episode_id]

/-- `TeangaConfig.get_media_dir` (config.py lines 94-98):
`get_episode_dir(episode_id) / "media"`, created idempotently. -/
def get_media_dir (episode_id : String) : FsPath :=
  get_episode_dir episode_id ++ ["media"]

/-- Split a character list at every path separator. -/
def splitSlashAux : List Char → List Char → List String
  | [], cur => [String.mk cur.reverse]
  | c :: rest, cur =>
      if c = '/' then String.mk cur.reverse :: splitSlashAux rest []
      else splitSlashAux rest (c :: cur)

/-- The `/`-separated components of a path string. -/
def splitSlash (s : String) : List String :=
  splitSlashAux s.data []

/-- Python `pathlib` joining `dir / filename`: the filename string is
split on the path separator into components; a leading separator would
make it absolute and replace the base entirely.  No component - in
particular no ".." - is rejected, sanitized, or resolved. -/
def pathJoin (base : FsPath) (filename : String) : FsPath :=
  let comps := (splitSlash filename).filter (fun c => c ≠ "")
  match filename.data with
  | '/' :: _ => comps
  | _ => base ++ comps

/-- `EpisodeManager.get_media_path` (manager.py lines 154-156):

        return self.config.get_media_dir(self.episode_id) / filename
-/
def get_media_path (episode_id : String) (filename : String) : FsPath :=
  pathJoin (get_media_dir episode_id) filename

/-- `os.path.normpath`-style resolution of ".." segments, used only to
JUDGE whether a returned path escapes the data root (the code itself
never normalizes). -/
def normalizePath (p : FsPath) : FsPath :=
  p.foldl
    (fun acc c =>
      if c = "." then acc
      else if c = ".." then
        match acc.getLast? with
        | some last => if last = ".." then acc ++ [c] else acc.dropLast
        | none => acc ++ [c]
      else acc ++ [c])
    []

/-- A path lies inside the data root when, after resolving "." and ".."
segments, the root's components are still its leading components. -/
def insideDataRoot (p : FsPath) : Bool :=
  dataRoot.isPrefixOf (normalizePath p)

/-- `EpisodeManager._load_metadata` (manager.py lines 88-108): if the file
exists, `json.load` it (re-raising `JSONDecodeError` on malformed text)
and validate with `EpisodeMetadata(**data)` (re-raising `ValueError`);
if the file does not exist, return `None`.  `now` feeds the
`default_factory=datetime.utcnow` defaults used by validation. -/
def load_metadata (file : Option FileContent) (now : Tick) :
    Except LoadError (Option EpisodeMetadata) :=
  match file with
  | none => Except.ok none
  | some FileContent.notJson => Except.error LoadError.jsonDecodeError
  | some (FileContent.json v) =>
      match parseEpisodeMetadata now v with
      | Except.ok m => Except.ok (some m)
      | Except.error f => Except.error (LoadError.valueError f)

/-- The successive on-disk states of `metadata.json` during
`EpisodeManager.save_metadata` (manager.py lines 110-131):

        with open(self.metadata_path, "w", encoding="utf-8") as f:
            json.dump(self.metadata.model_dump(mode="json"), f, ...)

`open(..., "w")` truncates the file in place at once, so the document is
first destroyed (an empty - hence non-JSON - file) and only then
rewritten; there is no temporary file and no rename. -/
def save_metadata_states (m : EpisodeMetadata) (now : Tick) :
    List FileContent :=
  [ FileContent.notJson
  , FileContent.json (encodeMeta { m with updated_at := now }) ]

/-- `EpisodeManager.save_metadata`, run to completion: sets
`updated_at = datetime.utcnow()` (one clock call) and writes the dump of
the whole record over `metadata.json`. -/
def save_metadata (m : EpisodeMetadata) (fs : FsState) (clock : Tick) :
    EpisodeMetadata × FsState × Tick :=
  let m2 := { m with updated_at := clock }
  (m2, { fs with metadata_json := some (FileContent.json (encodeMeta m2)) },
   clock + 1)

/-- The on-disk state when a crash interrupts `save_metadata` after
`open(..., "w")` has truncated `metadata.json` but before `json.dump`
has written the document. -/
def save_metadata_crashed (fs : FsState) : FsState :=
  { fs with metadata_json := some FileContent.notJson }

/-- The manager object: bound episode id plus the in-memory metadata
(`None` when no file existed and none was supplied). -/
structure EpisodeManager where
  episode_id : String
  metadata : Option EpisodeMetadata
deriving Repr, BEq

/-- `EpisodeManager.__init__` (manager.py lines 64-86): resolves
`config.get_episode_dir(episode_id)` - which `mkdir`s the episode
directory as a side effect - then either adopts the supplied metadata or
calls `_load_metadata`, letting its exceptions escape. -/
def EpisodeManager.init (episode_id : String)
    (metadata : Option EpisodeMetadata) (fs : FsState) (now : Tick) :
    Except LoadError (EpisodeManager × FsState) :=
  let fs2 := mkdirParents (get_episode_dir episode_id) fs
  match metadata with
  | some m => Except.ok ({ episode_id := episode_id, metadata := some m }, fs2)
  | none =>
      match load_metadata fs2.metadata_json now with
      | Except.ok loaded =>
          Except.ok ({ episode_id := episode_id, metadata := loaded }, fs2)
      | Except.error e => Except.error e

/-- Split a list into consecutive chunks of `n` elements (the last chunk
may be shorter); structural recursion on a fuel bounded by the length. -/
def chunksOfAux (n : Nat) : List α → Nat → List (List α)
  | [], _ => []
  | _ :: _, 0 => []
  | l, fuel + 1 => l.take n :: chunksOfAux n (l.drop n) fuel

/-- All consecutive `n`-chunks of a list, mirroring the read loop
`iter(lambda: f.read(8192), b"")` of `compute_file_checksum` (and the
64-byte block split of SHA-256). -/
def chunksOf (n : Nat) (l : List α) : List (List α) :=
  chunksOfAux n l l.length

namespace SHA256

/-!  A bit-faithful executable model of the SHA-256 function computed by
`hashlib.sha256` (FIPS 180-4), over byte lists, with 32-bit words as
naturals reduced mod 2^32. -/

def wordMod (x : Nat) : Nat := x % 4294967296

def rotr (n x : Nat) : Nat := wordMod ((x >>> n) ||| (x <<< (32 - n)))

def shr (n x : Nat) : Nat := x >>> n

def bigSigma0 (x : Nat) : Nat := (rotr 2 x) ^^^ (rotr 13 x) ^^^ (rotr 22 x)
def bigSigma1 (x : Nat) : Nat := (rotr 6 x) ^^^ (rotr 11 x) ^^^ (rotr 25 x)
def smallSigma0 (x : Nat) : Nat := (rotr 7 x) ^^^ (rotr 18 x) ^^^ (shr 3 x)
def smallSigma1 (x : Nat) : Nat := (rotr 17 x) ^^^ (rotr 19 x) ^^^ (shr 10 x)

def ch (x y z : Nat) : Nat := (x &&& y) ^^^ ((x ^^^ 4294967295) &&& z)
def maj (x y z : Nat) : Nat := (x &&& y) ^^^ (x &&& z) ^^^ (y &&& z)

def K : List Nat :=
  [1116352408, 1899447441, 3049323471, 3921009573, 961987163,
   1508970993, 2453635748, 2870763221, 3624381080, 310598401,
   607225278, 1426881987, 1925078388, 2162078206, 2614888103,
   3248222580, 3835390401, 4022224774, 264347078, 604807628,
   770255983, 1249150122, 1555081692, 1996064986, 2554220882,
   2821834349, 2952996808, 3210313671, 3336571891, 3584528711,
   113926993, 338241895, 666307205, 773529912, 1294757372,
   1396182291, 1695183700, 1986661051, 2177026350, 2456956037,
   2730485921, 2820302411, 3259730800, 3345764771, 3516065817,
   3600352804, 4094571909, 275423344, 430227734, 506948616,
   659060556, 883997877, 958139571, 1322822218, 1537002063,
   1747873779, 1955562222, 2024104815, 2227730452, 2361852424,
   2428436474, 2756734187, 3204031479, 3329325298]

def H0 : List Nat :=
  [1779033703, 3144134277, 1013904242, 2773480762,
   1359893119, 2600822924, 528734635, 1541459225]

/-- The `k` low-order bytes of `n`, big-endian. -/
def bytesBE (k n : Nat) : List Nat :=
  (List.range k).reverse.map (fun i => (n >>> (8 * i)) % 256)

/-- FIPS 180-4 padding: a 0x80 byte, zeros to 56 mod 64, then the bit
length in 8 big-endian bytes. -/
def padMessage (msg : List Nat) : List Nat :=
  let len := msg.length
  let zeros := (64 + 56 - ((len + 1) % 64)) % 64
  msg ++ [128] ++ List.replicate zeros 0 ++ bytesBE 8 (len * 8)

def wordOfBytes (bs : List Nat) : Nat := bs.foldl (fun acc b => acc * 256 + b) 0

/-- The 64-word message schedule of one 64-byte block. -/
def schedule (block : List Nat) : Array Nat :=
  let w0 := ((chunksOf 4 block).map wordOfBytes).toArray
  (List.range 48).foldl
    (fun w t =>
      let i := t + 16
      w.push (wordMod (smallSigma1 (w.getD (i - 2) 0) + w.getD (i - 7) 0 +
        smallSigma0 (w.getD (i - 15) 0) + w.getD (i - 16) 0)))
    w0

/-- One compression round on the eight working registers. -/
def round1 (w : Array Nat) (regs : List Nat) (t : Nat) : List Nat :=
  match regs with
  | [a, b, c, d, e, f, g, h] =>
      let t1 := wordMod (h + bigSigma1 e + ch e f g + K.getD t 0 + w.getD t 0)
      let t2 := wordMod (bigSigma0 a + maj a b c)
      [wordMod (t1 + t2), a, b, c, wordMod (d + t1), e, f, g]
  | other => other

/-- The block compression function. -/
def compress (hs : List Nat) (block : List Nat) : List Nat :=
  let w := schedule block
  let regs := (List.range 64).foldl (round1 w) hs
  List.zipWith (fun x y => wordMod (x + y)) hs regs

def sha256Words (msg : List Nat) : List Nat :=
  (chunksOf 64 (padMessage msg)).foldl compress H0

def hexChar (n : Nat) : Char :=
  if n < 10 then Char.ofNat (48 + n) else Char.ofNat (87 + n)

def wordToHex (w : Nat) : String :=
  String.mk ((List.range 8).reverse.map (fun i => hexChar ((w >>> (4 * i)) % 16)))

/-- The lowercase hex SHA-256 digest of a byte list: the value of
`hashlib.sha256(bytes).hexdigest()`. -/
def sha256hex (msg : List Nat) : String :=
  String.join ((sha256Words msg).map wordToHex)

end SHA256

/-- The accumulated input of a `hashlib.sha256` object: `update` extends
the absorbed stream, `hexdigest` hashes everything absorbed so far. -/
def hashlibAbsorb (chunks : List (List Nat)) : List Nat :=
  chunks.foldl (fun acc c => acc ++ c) []

/-- The read loop of `compute_file_checksum`:
`for chunk in iter(lambda: f.read(8192), b""): ...` - the successive
8192-byte reads of the file's content. -/
def readChunks (content : List Nat) : List (List Nat) :=
  chunksOf 8192 content

/-- `EpisodeManager.compute_file_checksum` (manager.py lines 174-201):
feeds the file's bytes to SHA-256 in 8192-byte chunks and returns the
hex digest. -/
def compute_file_checksum (content : List Nat) : String :=
  SHA256.sha256hex (hashlibAbsorb (readChunks content))

/-- The full state a running `EpisodeManager` acts on: the in-memory
metadata, the filesystem, and the clock. -/
structure MgrState where
  meta : EpisodeMetadata
  fs : FsState
  clock : Tick
deriving Repr, BEq

/-- `EpisodeManager.add_processing_step` (manager.py lines 133-152):
appends to the in-memory ledger, then `save_metadata()` flushes the
whole record. -/
def EpisodeManager.add_processing_step (s : MgrState) (step : String)
    (status : String := "success")
    (details : Option (List (String × Json)) := none) : MgrState :=
  let (m2, c2) := s.meta.add_processing_step step status details s.clock
  let (m3, fs3, c3) := save_metadata m2 s.fs c2
  { meta := m3, fs := fs3, clock := c3 }

/-- `EpisodeManager.set_audio_checksum` (manager.py lines 203-216):
computes the file's checksum, stores it as `"sha256:<hex>"`, flushes. -/
def EpisodeManager.set_audio_checksum (s : MgrState)
    (fileBytes : List Nat) : MgrState :=
  let checksum := compute_file_checksum fileBytes
  let m2 := { s.meta with audio_checksum := some ("sha256:" ++ checksum) }
  let (m3, fs3, c3) := save_metadata m2 s.fs s.clock
  { meta := m3, fs := fs3, clock := c3 }

/-- The mutating operations a caller can run on a manager after it holds
metadata (the path getters never touch the metadata record). -/
inductive MgrOp where
  | addStep (step status : String) (details : Option (List (String × Json)))
  | saveOnly
  | setAudioChecksum (fileBytes : List Nat)

def applyOp (s : MgrState) : MgrOp → MgrState
  | MgrOp.addStep st stat d => EpisodeManager.add_processing_step s st stat d
  | MgrOp.saveOnly =>
      let (m2, fs2, c2) := save_metadata s.meta s.fs s.clock
      { meta := m2, fs := fs2, clock := c2 }
  | MgrOp.setAudioChecksum bs => EpisodeManager.set_audio_checksum s bs

def applyOps (s : MgrState) (ops : List MgrOp) : MgrState :=
  ops.foldl applyOp s

/-- A Python `datetime` value, to the resolution `create_episode_id`
reads from it. -/
structure PyDateTime where
  year : Nat
  month : Nat
  day : Nat
  hour : Nat
  minute : Nat
  second : Nat
deriving Repr, BEq, DecidableEq

def pad2 (n : Nat) : String :=
  if n < 10 then "0" ++ toString n else toString n

def pad4 (n : Nat) : String :=
  if n < 10 then "000" ++ toString n
  else if n < 100 then "00" ++ toString n
  else if n < 1000 then "0" ++ toString n
  else toString n

/-- `pub_date.strftime("%Y%m%d")`. -/
def strftimeYmd (d : PyDateTime) : String :=
  pad4 d.year ++ pad2 d.month ++ pad2 d.day

/-- `pub_date.strftime("%H%M")`. -/
def strftimeHM (d : PyDateTime) : String :=
  pad2 d.hour ++ pad2 d.minute

/-- `str.lower()`, character by character (`Char.toLower` lower-cases the
ASCII letters, matching `str.lower` on the ASCII show names the
repository uses). -/
def pyLower (s : String) : String :=
  String.mk (s.data.map Char.toLower)

/-- Python `str.replace(old, new)` for a one-character pattern: global
substring replacement degenerates to a per-character map. -/
def pyReplaceChar (s : String) (old new : Char) : String :=
  String.mk (s.data.map (fun c => if c = old then new else c))

/-- `show.lower().replace(" ", "_").replace("-", "_")` (manager.py line
239). -/
def sanitizeShow (s : String) : String :=
  pyReplaceChar (pyReplaceChar (pyLower s) ' ' '_') '-' '_'

/-- `create_episode_id` (manager.py lines 219-242):

        date_str = pub_date.strftime("%Y%m%d")
        time_str = pub_date.strftime("%H%M")
        show_clean = show.lower().replace(" ", "_").replace("-", "_")
        episode_id = f"{source}_{show_clean}_{date_str}_{time_str}"
-/
def create_episode_id (source : String) (showName : String)
    (pub_date : PyDateTime) : String :=
  let date_str := strftimeYmd pub_date
  let time_str := strftimeHM pub_date
  let show_clean := sanitizeShow showName
  source ++ "_" ++ show_clean ++ "_" ++ date_str ++ "_" ++ time_str

/-! ## Helper lemmas -/

theorem chunksOfAux_flatten {α : Type} (n : Nat) (hn : 0 < n) :
    ∀ (fuel : Nat) (l : List α), l.length ≤ fuel →
      (chunksOfAux n l fuel).flatten = l := by
  intro fuel
  induction fuel with
  | zero =>
      intro l h
      have hl : l = [] := List.length_eq_zero.mp (Nat.le_zero.mp h)
      subst hl
      rfl
  | succ fuel ih =>
      intro l h
      match l with
      | [] => rfl
      | a :: t =>
          show ((a :: t).take n :: chunksOfAux n ((a :: t).drop n) fuel).flatten = a :: t
          rw [List.flatten_cons]
          rw [ih ((a :: t).drop n)
                (by simp only [List.length_drop, List.length_cons] at h ⊢; omega)]
          exact List.take_append_drop n (a :: t)

theorem chunksOf_flatten {α : Type} (n : Nat) (hn : 0 < n) (l : List α) :
    (chunksOf n l).flatten = l :=
  chunksOfAux_flatten n hn l.length l (Nat.le_refl _)

theorem foldl_append_eq_flatten {α : Type} :
    ∀ (xs : List (List α)) (acc : List α),
      xs.foldl (fun a b => a ++ b) acc = acc ++ xs.flatten := by
  intro xs
  induction xs with
  | nil => intro acc; simp
  | cons x xs ih => intro acc; simp [ih, List.append_assoc]

/-- The absorbed stream of the hash object equals the whole file:
concatenating the 8192-byte reads reconstructs the byte sequence. -/
theorem hashlibAbsorb_readChunks (content : List Nat) :
    hashlibAbsorb (readChunks content) = content := by
  rw [hashlibAbsorb, foldl_append_eq_flatten, List.nil_append, readChunks,
    chunksOf_flatten 8192 (by decide) content]

/-! ## Sanity checks of the SHA-256 model against published test vectors -/

set_option maxRecDepth 8000 in
theorem sha256hex_empty_vector :
    SHA256.sha256hex [] =
      "e3b0c44298fc1c149afbf4c8996fb92427ae41e4649b934ca495991b7852b855" := by
  rfl

set_option maxRecDepth 8000 in
theorem sha256hex_abc_vector :
    SHA256.sha256hex [97, 98, 99] =
      "ba7816bf8f01cfea414140de5dae2223b00361a396177a9cb410ff61f20015ad" := by
  rfl

/-- The docstring example of `create_episode_id` (manager.py lines 231-234). -/
theorem create_episode_id_docstring_example :
    create_episode_id "rnag" "nuacht" ⟨2025, 10, 18, 18, 0, 0⟩ =
      "rnag_nuacht_20251018_1800" := by
  rfl

/-! ## Claim theorems -/

/-- C7: `compute_file_checksum` returns the hex SHA-256 digest of the
file's entire byte content: the streaming computation over 8192-byte
chunks equals the one-pass SHA-256 of the whole byte sequence, and the
function is deterministic, so repeated calls on unchanged bytes return
the same digest. -/
theorem compute_file_checksum_matches_sha256 :
    ∀ content : List Nat,
      compute_file_checksum content = SHA256.sha256hex content ∧
      compute_file_checksum content = compute_file_checksum content := by
  intro content
  refine ⟨?_, rfl⟩
  rw [compute_file_checksum, hashlibAbsorb_readChunks]

/-- C6: `create_episode_id` is deterministic - two calls on the same
inputs yield the same string - and formats the id as
`source_show_YYYYMMDD_HHMM` with the show name lower-cased and spaces
and hyphens replaced by underscores; any two publish times that agree
once truncated to the minute (the format reads nothing finer) yield the
same identity. -/
theorem create_episode_id_deterministic_format :
    (∀ (source showName : String) (pub : PyDateTime),
        create_episode_id source showName pub =
          create_episode_id source showName pub) ∧
    (∀ (source showName : String) (pub : PyDateTime),
        create_episode_id source showName pub =
          source ++ "_" ++ sanitizeShow showName ++ "_" ++
            strftimeYmd pub ++ "_" ++ strftimeHM pub) ∧
    (∀ (source showName : String) (p1 p2 : PyDateTime),
        p1.year = p2.year → p1.month = p2.month → p1.day = p2.day →
        p1.hour = p2.hour → p1.minute = p2.minute →
        create_episode_id source showName p1 =
          create_episode_id source showName p2) := by
  refine ⟨fun _ _ _ => rfl, fun _ _ _ => rfl, ?_⟩
  intro source showName p1 p2 hy hmo hd hh hmin
  simp [create_episode_id, strftimeYmd, strftimeHM, hy, hmo, hd, hh, hmin]

/-- Witness for C6: the third conjunct applied to two concrete publish
times that differ only in seconds, plus a concrete evaluation. -/
theorem create_episode_id_deterministic_format_witness :
    create_episode_id "rnag" "nuacht" ⟨2025, 10, 18, 18, 0, 0⟩ =
      create_episode_id "rnag" "nuacht" ⟨2025, 10, 18, 18, 0, 59⟩ ∧
    create_episode_id "rnag" "nuacht" ⟨2025, 10, 18, 18, 0, 59⟩ =
      "rnag_nuacht_20251018_1800" :=
  ⟨create_episode_id_deterministic_format.2.2 "rnag" "nuacht"
      ⟨2025, 10, 18, 18, 0, 0⟩ ⟨2025, 10, 18, 18, 0, 59⟩ rfl rfl rfl rfl rfl,
   by rfl⟩

/-- C8 counterexample: the claim says `create_episode_id` fails with
`InvalidInputError` when the show is empty after normalization; in the
code there is no validation and no raise on this path at all - with an
empty show it returns the ordinary identity string with an empty show
segment. -/
theorem create_episode_id_empty_show_no_error :
    create_episode_id "rnag" "" ⟨2025, 10, 18, 18, 0, 0⟩ =
      "rnag__20251018_1800" := by
  rfl

/-- C8 amended: `create_episode_id` performs no validation of `show`;
when the show is empty it returns the id with an empty show segment
(consecutive underscores), raising no error, for every source and
publish time. -/
theorem create_episode_id_empty_show_amended :
    ∀ (source : String) (pub : PyDateTime),
      create_episode_id source "" pub =
        source ++ "_" ++ "" ++ "_" ++ strftimeYmd pub ++ "_" ++
          strftimeHM pub := by
  intro source pub
  rfl

/-- C3: the claim says path resolution rejects or sanitizes ".."
segments and never escapes the data root; in the code `get_media_path`
joins the caller's filename verbatim, so a filename of path-traversal
segments yields a path that, once resolved, lies outside the data root,
and no error is signalled (the function is total). -/
theorem get_media_path_traversal_escapes :
    get_media_path "rnag_nuacht_20251018_1800" "../../../../secret" =
      ["data", "episodes", "rnag_nuacht_20251018_1800", "media",
       "..", "..", "..", "..", "secret"] ∧
    normalizePath
      (get_media_path "rnag_nuacht_20251018_1800" "../../../../secret") =
      ["secret"] ∧
    insideDataRoot
      (get_media_path "rnag_nuacht_20251018_1800" "../../../../secret") =
      false := by
  exact ⟨rfl, rfl, rfl⟩

/-! ## Ledger lemmas (C1) -/

/-- The caller-visible content of one ledger entry: the arguments of the
`recordStep` call that produced it (everything but the timestamp). -/
def stepCallOf (e : ProcessingStep) :
    String × String × Option (List (String × Json)) :=
  (e.step, e.status, e.details)

/-- The `recordStep` calls contained in an operation sequence, in order. -/
def stepCallsOf (ops : List MgrOp) :
    List (String × String × Option (List (String × Json))) :=
  ops.filterMap (fun op =>
    match op with
    | MgrOp.addStep st stat d => some (st, stat, d)
    | _ => none)

theorem applyOp_history (s : MgrState) (op : MgrOp) :
    ∃ tail, (applyOp s op).meta.processing_history =
        s.meta.processing_history ++ tail ∧
      tail.map stepCallOf = stepCallsOf [op] := by
  cases op with
  | addStep st stat d =>
      exact ⟨[{ step := st, timestamp := s.clock, status := stat,
                details := d }], rfl, rfl⟩
  | saveOnly => exact ⟨[], by simp [applyOp, save_metadata], rfl⟩
  | setAudioChecksum bs =>
      exact ⟨[], by simp [applyOp, EpisodeManager.set_audio_checksum,
        save_metadata], rfl⟩

theorem applyOps_history :
    ∀ (ops : List MgrOp) (s : MgrState),
      ∃ tail, (applyOps s ops).meta.processing_history =
          s.meta.processing_history ++ tail ∧
        tail.map stepCallOf = stepCallsOf ops := by
  intro ops
  induction ops with
  | nil => intro s; exact ⟨[], by simp [applyOps], rfl⟩
  | cons op ops ih =>
      intro s
      obtain ⟨t1, h1, h1m⟩ := applyOp_history s op
      obtain ⟨t2, h2, h2m⟩ := ih (applyOp s op)
      refine ⟨t1 ++ t2, ?_, ?_⟩
      · calc (applyOps s (op :: ops)).meta.processing_history
            = (applyOps (applyOp s op) ops).meta.processing_history := rfl
          _ = (applyOp s op).meta.processing_history ++ t2 := h2
          _ = s.meta.processing_history ++ t1 ++ t2 := by rw [h1]
          _ = s.meta.processing_history ++ (t1 ++ t2) := by
              rw [List.append_assoc]
      · rw [List.map_append, h1m, h2m]
        cases op <;> simp [stepCallsOf]

/-! ## Directory-creation lemmas (C10) -/

theorem mem_foldl_insertAbsent (l : List FsPath) :
    ∀ (ds : List FsPath) (d : FsPath), d ∈ l ∨ d ∈ ds →
      d ∈ l.foldl (fun ds p => if p ∈ ds then ds else ds ++ [p]) ds := by
  induction l with
  | nil =>
      intro ds d h
      simpa using h
  | cons x l ih =>
      intro ds d h
      simp only [List.foldl_cons]
      apply ih
      rcases h with h | h
      · rcases List.mem_cons.mp h with rfl | h
        · right
          by_cases hc : d ∈ ds
          · simp [hc]
          · simp [hc]
        · left; exact h
      · right
        by_cases hc : x ∈ ds
        · simp [hc, h]
        · rw [if_neg hc]
          exact List.mem_append.mpr (Or.inl h)

theorem mem_mkdirParents (p : FsPath) (hp : p ≠ []) (fs : FsState) :
    p ∈ (mkdirParents p fs).dirs := by
  have hlen : 0 < p.length := List.length_pos.mpr hp
  apply mem_foldl_insertAbsent
  left
  simp only [List.mem_map]
  refine ⟨p.length - 1, List.mem_range.mpr (by omega), ?_⟩
  rw [Nat.sub_add_cancel hlen]
  exact List.take_length p

/-! ## Loading lemmas (C4, C5, C10) -/

/-- `__init__` with no supplied metadata and no metadata file: the
directory side effect happens and the manager comes back with
`metadata = None` - no exception of any kind. -/
theorem init_absent_file (episode_id : String) (fs : FsState) (now : Tick)
    (h : fs.metadata_json = none) :
    EpisodeManager.init episode_id none fs now =
      Except.ok ({ episode_id := episode_id, metadata := none },
        mkdirParents (get_episode_dir episode_id) fs) := by
  have h2 : (mkdirParents (get_episode_dir episode_id) fs).metadata_json =
      none := h
  simp [EpisodeManager.init, load_metadata, h2]

/-- `__init__` with supplied metadata adopts it unconditionally. -/
theorem init_with_metadata (episode_id : String) (m : EpisodeMetadata)
    (fs : FsState) (now : Tick) :
    EpisodeManager.init episode_id (some m) fs now =
      Except.ok ({ episode_id := episode_id, metadata := some m },
        mkdirParents (get_episode_dir episode_id) fs) := rfl

/-- C1: over any starting metadata record and any sequence of manager
operations, the ledger only ever grows at the end: its final length is
the starting length plus the number of `recordStep`
(`add_processing_step`) calls; the starting entries survive unchanged,
in place and in order (the take of the old length is exactly the old
ledger - nothing is edited, removed, or reordered by any later
operation); and the appended entries carry the recorded calls' step,
status, and details in call order.  Starting from a fresh record with an
empty history, the first conjunct reads: length equals the number of
calls. -/
theorem history_append_only :
    ∀ (s : MgrState) (ops : List MgrOp),
      (applyOps s ops).meta.processing_history.length =
        s.meta.processing_history.length + (stepCallsOf ops).length ∧
      (applyOps s ops).meta.processing_history.take
          s.meta.processing_history.length = s.meta.processing_history ∧
      ((applyOps s ops).meta.processing_history.drop
          s.meta.processing_history.length).map stepCallOf =
        stepCallsOf ops := by
  intro s ops
  obtain ⟨tail, h, hm⟩ := applyOps_history ops s
  rw [h]
  refine ⟨?_, ?_, ?_⟩
  · rw [List.length_append, ← hm, List.length_map]
  · exact List.take_left _ _
  · rw [List.drop_left, hm]

/-- C10: merely constructing `EpisodeManager(episode_id)` - no metadata
supplied, no metadata file on disk, `create` never called - succeeds and
creates `<data_root>/episodes/<episode_id>/` on disk, because `__init__`
calls `config.get_episode_dir`, whose `mkdir(parents=True,
exist_ok=True)` runs unconditionally. -/
theorem init_creates_episode_directory :
    ∀ (episode_id : String) (fs : FsState) (now : Tick),
      fs.metadata_json = none →
      EpisodeManager.init episode_id none fs now =
        Except.ok ({ episode_id := episode_id, metadata := none },
          mkdirParents (get_episode_dir episode_id) fs) ∧
      get_episode_dir episode_id ∈
        (mkdirParents (get_episode_dir episode_id) fs).dirs := by
  intro episode_id fs now h
  exact ⟨init_absent_file episode_id fs now h,
    mem_mkdirParents _ (by simp [get_episode_dir, dataRoot]) fs⟩

/-- Witness for C10 at a concrete unknown episode on an empty filesystem. -/
theorem init_creates_episode_directory_witness :
    EpisodeManager.init "rnag_nuacht_20251018_1800" none ⟨[], none⟩ 0 =
      Except.ok
        ({ episode_id := "rnag_nuacht_20251018_1800", metadata := none },
          mkdirParents (get_episode_dir "rnag_nuacht_20251018_1800")
            ⟨[], none⟩) ∧
    get_episode_dir "rnag_nuacht_20251018_1800" ∈
      (mkdirParents (get_episode_dir "rnag_nuacht_20251018_1800")
        ⟨[], none⟩).dirs :=
  init_creates_episode_directory "rnag_nuacht_20251018_1800" ⟨[], none⟩ 0 rfl

/-- C4: the claim (and spec) say opening a never-created episode with no
`metadata.json` fails with `NotFoundError`; in the code `_load_metadata`
returns `None` when the file does not exist and `__init__` raises
nothing, so the constructor succeeds and hands back a manager in exactly
the empty-metadata state (`metadata = None`) the claim rules out.  The
callers' own `except` blocks ("Episode not found", try_transcription.py
lines 61-66) expect the raise the code never performs. -/
theorem init_missing_file_yields_none_metadata :
    EpisodeManager.init "never_created_episode" none ⟨[], none⟩ 0 =
      Except.ok ({ episode_id := "never_created_episode", metadata := none },
        mkdirParents (get_episode_dir "never_created_episode") ⟨[], none⟩) := by
  rfl

/-- C5: opening an episode whose `metadata.json` exists but is malformed
JSON, or is JSON failing structural validation, raises (the re-raised
`json.JSONDecodeError` / `ValueError` realising the spec's
`CorruptStateError`) and never returns a manager - in particular it
never silently proceeds with default or empty metadata. -/
theorem open_corrupt_metadata_raises :
    ∀ (episode_id : String) (fs : FsState) (now : Tick) (c : FileContent),
      fs.metadata_json = some c →
      (c = FileContent.notJson ∨
        ∃ v f, c = FileContent.json v ∧
          parseEpisodeMetadata now v = Except.error f) →
      ∃ e, EpisodeManager.init episode_id none fs now = Except.error e ∧
        ∀ result, EpisodeManager.init episode_id none fs now ≠
          Except.ok result := by
  intro episode_id fs now c hfs hc
  have hfs2 : (mkdirParents (get_episode_dir episode_id) fs).metadata_json =
      some c := hfs
  rcases hc with rfl | ⟨v, f, rfl, hv⟩
  · refine ⟨LoadError.jsonDecodeError, ?_, ?_⟩
    · simp [EpisodeManager.init, load_metadata, hfs2]
    · intro result
      simp [EpisodeManager.init, load_metadata, hfs2]
  · refine ⟨LoadError.valueError f, ?_, ?_⟩
    · simp [EpisodeManager.init, load_metadata, hfs2, hv]
    · intro result
      simp [EpisodeManager.init, load_metadata, hfs2, hv]

/-- Witness for C5: a file of malformed text, and a JSON object missing
every required field, both of which fail to open. -/
theorem open_corrupt_metadata_raises_witness :
    (∃ e, EpisodeManager.init "ep" none ⟨[], some FileContent.notJson⟩ 0 =
        Except.error e ∧
      ∀ result, EpisodeManager.init "ep" none
          ⟨[], some FileContent.notJson⟩ 0 ≠ Except.ok result) ∧
    (∃ e, EpisodeManager.init "ep" none
          ⟨[], some (FileContent.json (Json.obj []))⟩ 0 = Except.error e ∧
      ∀ result, EpisodeManager.init "ep" none
          ⟨[], some (FileContent.json (Json.obj []))⟩ 0 ≠
          Except.ok result) :=
  ⟨open_corrupt_metadata_raises "ep" ⟨[], some FileContent.notJson⟩ 0
      FileContent.notJson rfl (Or.inl rfl),
   open_corrupt_metadata_raises "ep"
      ⟨[], some (FileContent.json (Json.obj []))⟩ 0
      (FileContent.json (Json.obj [])) rfl
      (Or.inr ⟨Json.obj [], "episode_id", rfl, rfl⟩)⟩

/-- A concrete valid metadata record, as the pipeline scripts build one. -/
def exMeta : EpisodeMetadata :=
  { episode_id := "rnag_nuacht_20251018_1800", source := "rnag",
    «show» := "nuacht", title := "Nuacht a 6",
    original_url := "https://example.com/nuacht.mp3",
    created_at := 0, updated_at := 1 }

/-- C2: the claim says `save_metadata` writes to a temporary file and
renames it over `metadata.json`, so a crash mid-flush leaves the old
file valid.  In the code there is no temporary file and no rename:
`open(self.metadata_path, "w")` truncates `metadata.json` in place
before `json.dump` rewrites it, so the first intermediate on-disk state
is a file that no longer parses - a crash there destroys the previously
valid document, which then fails to load. -/
theorem save_metadata_not_atomic :
    load_metadata (some (FileContent.json (encodeMeta exMeta))) 7 =
      Except.ok (some exMeta) ∧
    (save_metadata_states exMeta 9).head? = some FileContent.notJson ∧
    load_metadata
      ((save_metadata_crashed
          ⟨[["data"]], some (FileContent.json (encodeMeta exMeta))⟩).metadata_json)
      7 = Except.error LoadError.jsonDecodeError := by
  exact ⟨rfl, rfl, rfl⟩

/-- `create(identity, metadata)` as the repository performs it
(try_audio_pipeline.py lines 70-83): build `EpisodeMetadata(...)` - its
two datetime `default_factory` calls read the clock for `created_at`
and `updated_at` - construct `EpisodeManager(episode_id, metadata)`
(which makes the episode directory and adopts the record, per
`init_with_metadata`), then `manager.save_metadata()`. -/
def create_episode (episode_id title source showName url : String)
    (fs : FsState) (clock : Tick) : MgrState :=
  let m : EpisodeMetadata :=
    { episode_id := episode_id, source := source, «show» := showName,
      title := title, original_url := url,
      created_at := clock, updated_at := clock + 1 }
  let fs2 := mkdirParents (get_episode_dir episode_id) fs
  let (m3, fs3, c3) := save_metadata m fs2 (clock + 2)
  { meta := m3, fs := fs3, clock := c3 }

def scenarioId : String := "rnag_nuacht_20251018_1800"

/-- The spec scenario run from tick 0 on an empty filesystem:
`create` then `recordStep("download", "success")` then
`recordStep("normalize", "failed", details={error: "no ffmpeg"})`. -/
def scenarioAfterSteps : MgrState :=
  EpisodeManager.add_processing_step
    (EpisodeManager.add_processing_step
      (create_episode scenarioId "Nuacht a 6" "rnag" "nuacht"
        "https://example.com/nuacht.mp3" ⟨[], none⟩ 0)
      "download" "success" none)
    "normalize" "failed" (some [("error", Json.str "no ffmpeg")])

/-- C9: after `create`, `recordStep("download","success")` and
`recordStep("normalize","failed",{error:"no ffmpeg"})`, reopening the
episode from disk yields metadata whose `processing_history` has length
2, with steps `["download","normalize"]` and statuses
`["success","failed"]` in that order, and `updated_at` strictly later
than `created_at`. -/
theorem scenario_create_record_reopen :
    ∃ (mgr : EpisodeManager) (fs2 : FsState) (m : EpisodeMetadata),
      EpisodeManager.init scenarioId none scenarioAfterSteps.fs 99 =
        Except.ok (mgr, fs2) ∧
      mgr.metadata = some m ∧
      m.processing_history.length = 2 ∧
      m.processing_history.map (fun e => e.status) =
        ["success", "failed"] ∧
      m.processing_history.map (fun e => e.step) =
        ["download", "normalize"] ∧
      m.created_at < m.updated_at := by
  refine ⟨_, _, _, rfl, rfl, rfl, rfl, rfl, by decide⟩
